import Mathlib

/-!
Verification development for the skill-suggestion server (`server.js`).

The file shallowly embeds the pure parts of the source (fallback skill
resolver, response-text parsing, the Mistral fetch with its retry logic,
the HTTP handler guard) as executable Lean functions, together with a
small-step model of the admission queue / retry scheduler (the
`isProcessing` flag, `lastRequestTime`, and the timed waits), and proves
or refutes the specification claims about them.

Machine integers do not occur in the relevant code paths; times and
counters are JS numbers used as integers and are modelled as `Nat`
(with `Int` where the source computes a possibly negative difference).
-/

namespace AIRB

/-! ## String primitives modelling the JavaScript string operations used -/

/-- Chars-level test that the first list is an initial segment of the second
(used to model `String.prototype.includes`). -/
def leadsChars : List Char → List Char → Bool
  | [], _ => true
  | _ :: _, [] => false
  | p :: ps, c :: cs => p = c && leadsChars ps cs

/-- Does `pat` occur contiguously inside `l`?  Model of JS `includes`. -/
def containsChars (pat : List Char) : List Char → Bool
  | [] => leadsChars pat []
  | c :: cs => leadsChars pat (c :: cs) || containsChars pat cs

/-- Model of `s.includes(pat)` (line 114, lines 166-187 of server.js). -/
def jsIncludes (s pat : String) : Bool :=
  containsChars pat.data s.data

/-- Model of `s.toLowerCase()` (line 165). -/
def jsToLower (s : String) : String :=
  String.mk (s.data.map Char.toLower)

/-- Whitespace-trimming on both ends of a char list. -/
def charsTrim (cs : List Char) : List Char :=
  ((cs.dropWhile Char.isWhitespace).reverse.dropWhile Char.isWhitespace).reverse

/-- Model of `s.trim()` (lines 97 and 136). -/
def jsTrim (s : String) : String :=
  String.mk (charsTrim s.data)

/-- Model of `s.split(',')` (line 96): split at every comma, keeping empty
pieces, so the result always has one more piece than there are commas. -/
def splitOnComma : List Char → List (List Char)
  | [] => [[]]
  | c :: cs =>
    if c = ',' then [] :: splitOnComma cs
    else
      match splitOnComma cs with
      | [] => [[c]]
      | h :: t => (c :: h) :: t

/-! ## getDefaultSkills (server.js lines 157-192) -/

/-- The `commonSkills` constant (lines 158-163). -/
def commonSkills : List String :=
  ["Communication", "Problem Solving", "Teamwork", "Time Management"]

/-- Embedding of `getDefaultSkills` (lines 157-192).  The JS parameter
default `jobTitle = ""` is modelled by `getDefaultSkillsNoArg` below. -/
def getDefaultSkills (jobTitle : String) : List String :=
  if jsIncludes (jsToLower jobTitle) "nurse" || jsIncludes (jsToLower jobTitle) "nursing" then
    ["Patient Care",
     "Medical Record Documentation",
     "Vital Signs Monitoring",
     "Medication Administration",
     "Wound Care",
     "Patient Advocacy",
     "CPR/BLS Certified",
     "Care Planning",
     "Clinical Assessment",
     "EMR/EHR Systems"] ++ commonSkills.take 2
  else if jsIncludes (jsToLower jobTitle) "developer" || jsIncludes (jsToLower jobTitle) "engineer" then
    commonSkills ++ ["JavaScript", "React", "Git", "CSS", "HTML"]
  else if jsIncludes (jsToLower jobTitle) "designer" then
    commonSkills ++ ["UI/UX", "Figma", "Adobe Creative Suite", "Prototyping"]
  else if jsIncludes (jsToLower jobTitle) "manager" then
    commonSkills ++ ["Leadership", "Project Management", "Agile", "Budgeting"]
  else
    commonSkills ++ ["Research", "Microsoft Office", "Organization", "Analysis"]

/-- Calling `getDefaultSkills()` with the argument omitted: the JS default
parameter `jobTitle = ""` (line 157) applies. -/
def getDefaultSkillsNoArg : List String :=
  getDefaultSkills ""

/-! ## Response-text parsing (server.js lines 83-108)

`content.match(/\[.*\]/s)` (line 89): the regex engine finds the leftmost
match; with the greedy `.*` under the `s` flag the match runs from the
first `[` of the text to the last `]` of the text.  `JSON.parse` is then
applied to the whole matched span (line 92).  `JSON.parse` is modelled for
the fragment the code expects — a JSON array of string literals (with the
single-character escapes); arrays holding non-string JSON values, and
`\uXXXX` escapes, are outside the modelled fragment (no claim depends on
them). -/

/-- Model of `content.match(/\[.*\]/s)` (line 89): the span from the first
`[` to the last `]`, when the former precedes the latter. -/
def jsMatchArray (s : String) : Option String :=
  match s.data.findIdx? (fun c => c = '['), s.data.reverse.findIdx? (fun c => c = ']') with
  | some i, some jr =>
    if i < s.data.length - 1 - jr then
      some (String.mk ((s.data.drop i).take (s.data.length - 1 - jr - i + 1)))
    else none
  | _, _ => none

/-- JSON whitespace. -/
def jsonWs (c : Char) : Bool :=
  c = ' ' || c = '\t' || c = '\n' || c = '\r'

/-- Drop leading JSON whitespace. -/
def skipWs : List Char → List Char
  | [] => []
  | c :: cs => if jsonWs c then skipWs cs else c :: cs

/-- Single-character JSON string escapes. -/
def jsonEscChar (c : Char) : Option Char :=
  if c = '"' then some '"'
  else if c = '\\' then some '\\'
  else if c = '/' then some '/'
  else if c = 'b' then some (Char.ofNat 8)
  else if c = 'f' then some (Char.ofNat 12)
  else if c = 'n' then some '\n'
  else if c = 'r' then some '\r'
  else if c = 't' then some '\t'
  else none

/-- Body of a JSON string literal (after the opening quote): returns the
decoded characters and the remainder after the closing quote. -/
def jsonStrBody : Nat → List Char → Option (List Char × List Char)
  | 0, _ => none
  | _, [] => none
  | fuel + 1, c :: cs =>
    if c = '"' then some ([], cs)
    else if c = '\\' then
      match cs with
      | [] => none
      | e :: cs2 =>
        match jsonEscChar e with
        | none => none
        | some d =>
          match jsonStrBody fuel cs2 with
          | none => none
          | some (b, r) => some (d :: b, r)
    else
      match jsonStrBody fuel cs with
      | none => none
      | some (b, r) => some (c :: b, r)

/-- One or more comma-separated JSON string literals followed by `]`
(the non-empty-array tail after the opening `[`). -/
def jsonElemsTail : Nat → List Char → Option (List String × List Char)
  | 0, _ => none
  | fuel + 1, cs =>
    match skipWs cs with
    | '"' :: cs1 =>
      match jsonStrBody (cs1.length + 1) cs1 with
      | none => none
      | some (body, rest) =>
        match skipWs rest with
        | ',' :: cs2 =>
          match jsonElemsTail fuel cs2 with
          | none => none
          | some (l, r) => some (String.mk body :: l, r)
        | ']' :: cs2 => some ([String.mk body], cs2)
        | _ => none
    | _ => none

/-- Model of `JSON.parse` on the fragment used by the code: a complete JSON
array of string literals (trailing whitespace allowed).  `none` models a
thrown `SyntaxError`. -/
def jsonParseStringArray (s : String) : Option (List String) :=
  match skipWs s.data with
  | '[' :: cs1 =>
    let parsed :=
      match skipWs cs1 with
      | ']' :: rest => some (([] : List String), rest)
      | _ => jsonElemsTail (cs1.length + 1) cs1
    match parsed with
    | none => none
    | some (l, rest) => if (skipWs rest).isEmpty then some l else none
  | _ => none

/-- The comma-split fallback (lines 95-98): split on commas, trim each
piece, discard empty pieces. -/
def jsSplitTrim (s : String) : List String :=
  ((splitOnComma s.data).map (fun cs => String.mk (charsTrim cs))).filter
    (fun t => 0 < t.length)

/-- Embedding of lines 83-108: extract a skill list from the model text.
The inner `try`/`catch` (lines 85-103) falls back to `getDefaultSkills`
when `JSON.parse` throws, and lines 106-108 substitute the default list
when the outcome is empty. -/
def parseContent (jobTitle content : String) : List String :=
  let skills :=
    match jsMatchArray content with
    | some m =>
      match jsonParseStringArray m with
      | some l => l
      | none => getDefaultSkills jobTitle
    | none => jsSplitTrim content
  if skills.isEmpty then getDefaultSkills jobTitle else skills

/-! ## fetchSkillsFromMistral (server.js lines 62-129) and the queue body -/

/-- Outcome of one remote completion call (`client.chat.complete`,
line 74): the response text on success, or the error's `message` string on
failure.  Rate limiting is detected by the code through the substring test
`error.message.includes("rate limit")` (line 114). -/
inductive ClientResult where
  | ok (content : String)
  | err (message : String)
  deriving DecidableEq

/-- How a call to `fetchSkillsFromMistral` ends.

`ret skills` is a normal return (line 110 or line 127).

`refErrorThrown delayAwaited` models the rate-limit retry path
(lines 114-123): after awaiting the backoff delay, line 121 evaluates
`requestQueue.push({ jobTitle, res, retryCount: retryCount + 1 })` — but
the identifier `res` is not in scope inside `fetchSkillsFromMistral`
(its parameters are `jobTitle` and `retryCount`, and no module-level
`res` exists), so in this ES module the statement raises a
`ReferenceError` that rejects the function's promise.  The job is
therefore never re-queued; the exception is caught by `processQueue`'s
`catch` (lines 49-55). -/
inductive FetchResult where
  | ret (skills : List String)
  | refErrorThrown (delayAwaited : Nat)
  deriving DecidableEq

/-- The exponential backoff delay `Math.pow(2, retryCount) * 1000`
(line 115). -/
def backoffDelay (retryCount : Nat) : Nat :=
  2 ^ retryCount * 1000

/-- Embedding of `fetchSkillsFromMistral` (lines 62-129), as a function of
the remote call's outcome. -/
def fetchSkillsFromMistral (jobTitle : String) (retryCount : Nat)
    (remote : ClientResult) : FetchResult :=
  match remote with
  | .ok content => .ret (parseContent jobTitle content)
  | .err message =>
    if jsIncludes message "rate limit" ∧ retryCount < 3 then
      .refErrorThrown (backoffDelay retryCount)
    else
      .ret (getDefaultSkills jobTitle)

/-- A queued job (lines 43 and 144): title, the held responder (identified
by a number), and the retry counter (defaulted to 0 at line 43). -/
structure Job where
  title : String
  rid : Nat
  retryCount : Nat
  deriving DecidableEq

/-- What one invocation of the responder delivers: HTTP status, optional
error string, skill list. -/
structure JsResponse where
  status : Nat
  error : Option String
  skills : List String
  deriving DecidableEq

/-- The body of `processQueue` once a job is shifted (lines 46-55): a
normal return from `fetchSkillsFromMistral` is sent as `200 { skills }`;
a thrown error reaches the `catch` and is sent as
`500 { error, skills: getDefaultSkills(jobTitle) }`. -/
def processOne (j : Job) (remote : ClientResult) : JsResponse :=
  match fetchSkillsFromMistral j.title j.retryCount remote with
  | .ret skills => ⟨200, none, skills⟩
  | .refErrorThrown _ => ⟨500, some "Failed to get suggestions", getDefaultSkills j.title⟩

/-- State of a whole sequential run of the queue: pending jobs, the log of
completion attempts (job title and the `retryCount` the attempt was made
with, in order), and the responses delivered (responder id paired with
what it received, in order). -/
structure RunState where
  queue : List Job
  attemptLog : List (String × Nat)
  responses : List (Nat × JsResponse)
  deriving DecidableEq

/-- Drain the queue to completion (`processQueue`'s loop, lines 31-59):
each drain shifts the head job, makes one completion attempt (the oracle
gives the remote outcome of the n-th attempt), delivers exactly one
response for it, and recurses.  No branch re-queues anything: the only
path that would (line 121) instead raises the `ReferenceError` described
at `FetchResult.refErrorThrown`. -/
def drainAll (oracle : Nat → ClientResult) : Nat → RunState → RunState
  | 0, s => s
  | fuel + 1, s =>
    match s.queue with
    | [] => s
    | j :: rest =>
      drainAll oracle fuel
        { queue := rest
          attemptLog := s.attemptLog ++ [(j.title, j.retryCount)]
          responses := s.responses ++ [(j.rid, processOne j (oracle s.attemptLog.length))] }

/-! ## The HTTP handler guard (server.js lines 132-145) -/

/-- Result of running the POST handler up to its first suspension:
either an immediate HTTP response (the 400 rejection) with the queue
untouched and no drain triggered, or an enqueued job plus a drain. -/
structure HandlerStep where
  immediate : Option JsResponse
  queue : List Job
  drained : Bool
  deriving DecidableEq

/-- Embedding of the handler body (lines 134-145).  `jobTitle` is `none`
when the field is absent from the request body.  The falsy test
`!jobTitle` and the `jobTitle.trim() === ''` test (line 136) guard the 400
rejection; otherwise the job is pushed with no `retryCount` field
(defaulted to 0 on shift) and `processQueue()` is triggered. -/
def handlePost (jobTitle : Option String) (q : List Job) (rid : Nat) : HandlerStep :=
  match jobTitle with
  | none =>
    ⟨some ⟨400, some "Job title is required",
      ["Communication", "Problem Solving", "Teamwork", "Time Management"]⟩, q, false⟩
  | some s =>
    if s = "" || jsTrim s = "" then
      ⟨some ⟨400, some "Job title is required",
        ["Communication", "Problem Solving", "Teamwork", "Time Management"]⟩, q, false⟩
    else
      ⟨none, q ++ [⟨s, rid, 0⟩], true⟩

/-! ## Small-step model of the admission queue and retry scheduler

`processQueue` (lines 31-59) is an async function.  It runs synchronously
from its entry until the first `await`; the suspension points are exactly
the spacing wait (line 40), the remote call (line 74, inside the line-47
`await`), and the backoff wait (line 118, also inside the line-47
`await`).  At a suspension point the event loop may run other
continuations: new submissions may arrive (`requestQueue.push` plus a
`processQueue()` call, lines 144-145), and timers fire no earlier than
their deadline.  The model keeps one `Phase` per live `processQueue`
activation and lets steps interleave arbitrarily, which over-approximates
the actual event loop; time is a monotone `Nat` clock advanced
nondeterministically. -/

/-- `MIN_REQUEST_INTERVAL` (line 27). -/
def MIN_REQUEST_INTERVAL : Nat := 1000

/-- `Math.max(0, MIN_REQUEST_INTERVAL - (currentTime - lastRequestTime))`
(line 36), computed over JS numbers, hence via `Int`. -/
def timeToWait (now last : Nat) : Nat :=
  (max 0 ((MIN_REQUEST_INTERVAL : Int) - ((now : Int) - (last : Int)))).toNat

/-- Where one live `processQueue` activation stands.

* `start`: about to run the line-32 guard.
* `waiting readyAt`: passed the guard (so `isProcessing` was set at
  line 34), suspended in the spacing wait until `readyAt`.
* `inCall j`: shifted job `j` (line 43), `lastRequestTime` stamped
  (line 44), remote call in flight (line 74).
* `backoff readyAt j`: the remote call failed with a rate-limit error and
  `j.retryCount < 3`; suspended in the backoff wait (line 118) until
  `readyAt`. -/
inductive Phase where
  | start
  | waiting (readyAt : Nat)
  | inCall (j : Job)
  | backoff (readyAt : Nat) (j : Job)
  deriving DecidableEq

/-- The process-wide scheduler state: the clock, `requestQueue`,
`isProcessing`, `lastRequestTime`, the log of completion-attempt start
times (most recent first), the responses sent so far (responder id and
status, most recent first), and the live activations. -/
structure SState where
  now : Nat
  queue : List Job
  processing : Bool
  lastRequestTime : Nat
  attemptTimes : List Nat
  sent : List (Nat × Nat)
  tasks : List Phase
  deriving DecidableEq

/-- Module load time: empty queue, `isProcessing = false` (line 26),
`lastRequestTime = 0` (line 28). -/
def initState : SState :=
  ⟨0, [], false, 0, [], [], []⟩

/-- Phases past the line-32 guard: the activation owns the critical
section (`isProcessing` was set on its behalf). -/
def isActive : Phase → Bool
  | .start => false
  | _ => true

/-- Phases with a remote completion call in flight. -/
def isInCall : Phase → Bool
  | .inCall _ => true
  | _ => false

/-- One event of the cooperative scheduler. -/
inductive Step : SState → SState → Prop where
  /-- Time passes. -/
  | tick (s : SState) (d : Nat) :
      Step s { s with now := s.now + d }
  /-- Lines 144-145: a validated request appends a job (queue append is
  not gated by `isProcessing`) and calls `processQueue()`. -/
  | submit (s : SState) (j : Job) :
      Step s { s with queue := s.queue ++ [j], tasks := s.tasks ++ [Phase.start] }
  /-- Line 32: the guard fires — already processing or empty queue — and
  the activation returns at once. -/
  | drainNoop (s : SState) (l1 l2 : List Phase)
      (ht : s.tasks = l1 ++ Phase.start :: l2)
      (hc : s.processing = true ∨ s.queue = []) :
      Step s { s with tasks := l1 ++ l2 }
  /-- Lines 34-41: the guard passes, `isProcessing` is set, the spacing
  wait is computed from the current clock and begun. -/
  | drainEnter (s : SState) (l1 l2 : List Phase)
      (ht : s.tasks = l1 ++ Phase.start :: l2)
      (hp : s.processing = false) (hq : s.queue ≠ []) :
      Step s { s with processing := true,
                      tasks := l1 ++ Phase.waiting (s.now + timeToWait s.now s.lastRequestTime) :: l2 }
  /-- Lines 43-47: the spacing wait has elapsed (timers never fire early),
  the head job is shifted, `lastRequestTime` is stamped with the attempt's
  start time, and the remote call begins. -/
  | attempt (s : SState) (l1 l2 : List Phase) (r : Nat) (j : Job) (rest : List Job)
      (ht : s.tasks = l1 ++ Phase.waiting r :: l2)
      (hr : r ≤ s.now) (hq : s.queue = j :: rest) :
      Step s { s with queue := rest, lastRequestTime := s.now,
                      attemptTimes := s.now :: s.attemptTimes,
                      tasks := l1 ++ Phase.inCall j :: l2 }
  /-- `fetchSkillsFromMistral` returned normally: line 48 responds 200,
  line 57 clears `isProcessing`, line 58 re-runs `processQueue`. -/
  | callReturn (s : SState) (l1 l2 : List Phase) (j : Job) (remote : ClientResult)
      (skills : List String)
      (ht : s.tasks = l1 ++ Phase.inCall j :: l2)
      (hres : fetchSkillsFromMistral j.title j.retryCount remote = .ret skills) :
      Step s { s with sent := (j.rid, 200) :: s.sent, processing := false,
                      tasks := l1 ++ Phase.start :: l2 }
  /-- The remote call failed with a rate-limit error below the ceiling:
  the backoff wait of lines 115-118 begins (`isProcessing` stays set). -/
  | callRateLimited (s : SState) (l1 l2 : List Phase) (j : Job) (remote : ClientResult)
      (d : Nat)
      (ht : s.tasks = l1 ++ Phase.inCall j :: l2)
      (hres : fetchSkillsFromMistral j.title j.retryCount remote = .refErrorThrown d) :
      Step s { s with tasks := l1 ++ Phase.backoff (s.now + d) j :: l2 }
  /-- The backoff wait has elapsed; line 121 raises the `ReferenceError`
  (see `FetchResult.refErrorThrown`), the `catch` of lines 49-55 responds
  500, line 57 clears `isProcessing`, line 58 re-runs `processQueue`. -/
  | backoffCrash (s : SState) (l1 l2 : List Phase) (r : Nat) (j : Job)
      (ht : s.tasks = l1 ++ Phase.backoff r j :: l2)
      (hr : r ≤ s.now) :
      Step s { s with sent := (j.rid, 500) :: s.sent, processing := false,
                      tasks := l1 ++ Phase.start :: l2 }

/-- States the scheduler can reach from module load. -/
def Reachable (s : SState) : Prop :=
  Relation.ReflTransGen Step initState s

/-! ## The scheduler invariant -/

/-- The inductive invariant: the critical section is held by exactly one
activation iff `isProcessing` is set; the clock never lags
`lastRequestTime`; the newest logged attempt started at
`lastRequestTime`; any pending spacing wait ends at least
`MIN_REQUEST_INTERVAL` after the previous attempt's start; and
consecutive attempt start times are at least `MIN_REQUEST_INTERVAL`
apart. -/
def Inv (s : SState) : Prop :=
  s.tasks.countP isActive = (if s.processing then 1 else 0)
  ∧ s.lastRequestTime ≤ s.now
  ∧ s.attemptTimes.head?.getD s.lastRequestTime = s.lastRequestTime
  ∧ (∀ r, Phase.waiting r ∈ s.tasks → s.lastRequestTime + MIN_REQUEST_INTERVAL ≤ r)
  ∧ List.Chain' (fun a b => b + MIN_REQUEST_INTERVAL ≤ a) s.attemptTimes

lemma countP_start_mid (l1 l2 : List Phase) :
    (l1 ++ Phase.start :: l2).countP isActive = l1.countP isActive + l2.countP isActive := by
  have e0 : (if false = true then (1 : Nat) else 0) = 0 := rfl
  have hx : isActive Phase.start = false := rfl
  rw [List.countP_append, List.countP_cons, hx, e0]
  omega

lemma countP_active_mid (l1 l2 : List Phase) (x : Phase) (hx : isActive x = true) :
    (l1 ++ x :: l2).countP isActive = l1.countP isActive + l2.countP isActive + 1 := by
  have e1 : (if true = true then (1 : Nat) else 0) = 1 := rfl
  rw [List.countP_append, List.countP_cons, hx, e1]
  omega

lemma no_waiting_of_zero {l : List Phase} (h : l.countP isActive = 0) (r : Nat) :
    Phase.waiting r ∉ l := by
  intro hm
  have := List.countP_eq_zero.mp h _ hm
  simp [isActive] at this

lemma le_timeToWait (now last : Nat) (h : last ≤ now) :
    last + MIN_REQUEST_INTERVAL ≤ now + timeToWait now last := by
  unfold timeToWait
  rcases le_total ((MIN_REQUEST_INTERVAL : Int) - ((now : Int) - (last : Int))) 0 with h1 | h1
  · rw [max_eq_left h1]
    unfold MIN_REQUEST_INTERVAL at h1 ⊢
    omega
  · rw [max_eq_right h1]
    unfold MIN_REQUEST_INTERVAL at h1 ⊢
    omega

lemma inv_init : Inv initState := by
  refine ⟨rfl, le_refl 0, rfl, ?_, ?_⟩
  · intro r hr
    simp [initState] at hr
  · simp [initState]

lemma holder_facts {s : SState}
    (hcount : s.tasks.countP isActive = (if s.processing then 1 else 0))
    {l1 l2 : List Phase} {x : Phase} (ht : s.tasks = l1 ++ x :: l2)
    (hx : isActive x = true) :
    s.processing = true ∧ l1.countP isActive = 0 ∧ l2.countP isActive = 0 := by
  have e1 : (if true = true then (1 : Nat) else 0) = 1 := rfl
  have e0 : (if false = true then (1 : Nat) else 0) = 0 := rfl
  rw [ht, countP_active_mid l1 l2 x hx] at hcount
  have hproc : s.processing = true := by
    cases hp : s.processing
    · exfalso
      rw [hp, e0] at hcount
      omega
    · rfl
  rw [hproc, e1] at hcount
  exact ⟨hproc, by omega, by omega⟩

lemma inv_step {s t : SState} (st : Step s t) (hs : Inv s) : Inv t := by
  obtain ⟨hcount, hle, hhead, hwait, hchain⟩ := hs
  cases st with
  | tick d =>
    exact ⟨hcount, le_trans hle (Nat.le_add_right _ _), hhead, hwait, hchain⟩
  | submit j =>
    refine ⟨?_, hle, hhead, ?_, hchain⟩
    · show (s.tasks ++ [Phase.start]).countP isActive = (if s.processing then 1 else 0)
      have hx : isActive Phase.start = false := rfl
      have e0 : (if false = true then (1 : Nat) else 0) = 0 := rfl
      rw [List.countP_append, List.countP_cons, List.countP_nil, hx, e0, ← hcount]
      omega
    · intro r hr
      have hr' : Phase.waiting r ∈ s.tasks ++ [Phase.start] := hr
      rcases List.mem_append.mp hr' with h | h
      · exact hwait r h
      · simp at h
  | drainNoop l1 l2 ht hc =>
    refine ⟨?_, hle, hhead, ?_, hchain⟩
    · show (l1 ++ l2).countP isActive = (if s.processing then 1 else 0)
      rw [← hcount, ht, countP_start_mid, List.countP_append]
    · intro r hr
      have hr' : Phase.waiting r ∈ l1 ++ l2 := hr
      apply hwait
      rw [ht]
      rcases List.mem_append.mp hr' with h | h
      · exact List.mem_append.mpr (Or.inl h)
      · exact List.mem_append.mpr (Or.inr (List.mem_cons_of_mem _ h))
  | drainEnter l1 l2 ht hp hq =>
    have e0 : (if false = true then (1 : Nat) else 0) = 0 := rfl
    have h0 : l1.countP isActive = 0 ∧ l2.countP isActive = 0 := by
      have hc := hcount
      rw [hp, e0, ht, countP_start_mid] at hc
      exact ⟨by omega, by omega⟩
    refine ⟨?_, hle, hhead, ?_, hchain⟩
    · show (l1 ++ Phase.waiting (s.now + timeToWait s.now s.lastRequestTime) :: l2).countP isActive = 1
      rw [countP_active_mid l1 l2 (Phase.waiting (s.now + timeToWait s.now s.lastRequestTime)) rfl, h0.1, h0.2]
    · intro r hr
      have hr' : Phase.waiting r ∈
          l1 ++ Phase.waiting (s.now + timeToWait s.now s.lastRequestTime) :: l2 := hr
      show s.lastRequestTime + MIN_REQUEST_INTERVAL ≤ r
      rcases List.mem_append.mp hr' with h | h
      · exact hwait r (by rw [ht]; exact List.mem_append.mpr (Or.inl h))
      · rcases List.mem_cons.mp h with h | h
        · injection h with h2
          rw [h2]
          exact le_timeToWait s.now s.lastRequestTime hle
        · exact hwait r (by rw [ht]; exact List.mem_append.mpr (Or.inr (List.mem_cons_of_mem _ h)))
  | attempt l1 l2 r j rest ht hr hq =>
    obtain ⟨hproc, h1, h2⟩ := holder_facts hcount ht rfl
    have e1 : (if true = true then (1 : Nat) else 0) = 1 := rfl
    refine ⟨?_, le_refl _, rfl, ?_, ?_⟩
    · show (l1 ++ Phase.inCall j :: l2).countP isActive = (if s.processing then 1 else 0)
      rw [countP_active_mid l1 l2 (Phase.inCall j) rfl, h1, h2, hproc, e1]
    · intro r2 hr2
      exfalso
      have hr2' : Phase.waiting r2 ∈ l1 ++ Phase.inCall j :: l2 := hr2
      rcases List.mem_append.mp hr2' with h | h
      · exact no_waiting_of_zero h1 r2 h
      · rcases List.mem_cons.mp h with h | h
        · exact Phase.noConfusion h
        · exact no_waiting_of_zero h2 r2 h
    · show List.Chain' (fun a b => b + MIN_REQUEST_INTERVAL ≤ a) (s.now :: s.attemptTimes)
      rw [List.chain'_cons']
      refine ⟨?_, hchain⟩
      intro b hb
      have hb' : s.attemptTimes.head? = some b := Option.mem_def.mp hb
      have hblast : b = s.lastRequestTime := by
        rw [hb'] at hhead
        exact hhead
      have hwr : s.lastRequestTime + MIN_REQUEST_INTERVAL ≤ r :=
        hwait r (by rw [ht]; exact List.mem_append.mpr (Or.inr (List.mem_cons_self _ _)))
      show b + MIN_REQUEST_INTERVAL ≤ s.now
      rw [hblast]
      exact le_trans hwr hr
  | callReturn l1 l2 j remote skills ht hres =>
    obtain ⟨hproc, h1, h2⟩ := holder_facts hcount ht rfl
    refine ⟨?_, hle, hhead, ?_, hchain⟩
    · show (l1 ++ Phase.start :: l2).countP isActive = 0
      rw [countP_start_mid, h1, h2]
    · intro r2 hr2
      exfalso
      have hr2' : Phase.waiting r2 ∈ l1 ++ Phase.start :: l2 := hr2
      rcases List.mem_append.mp hr2' with h | h
      · exact no_waiting_of_zero h1 r2 h
      · rcases List.mem_cons.mp h with h | h
        · exact Phase.noConfusion h
        · exact no_waiting_of_zero h2 r2 h
  | callRateLimited l1 l2 j remote d ht hres =>
    obtain ⟨hproc, h1, h2⟩ := holder_facts hcount ht rfl
    have e1 : (if true = true then (1 : Nat) else 0) = 1 := rfl
    refine ⟨?_, hle, hhead, ?_, hchain⟩
    · show (l1 ++ Phase.backoff (s.now + d) j :: l2).countP isActive = (if s.processing then 1 else 0)
      rw [countP_active_mid l1 l2 (Phase.backoff (s.now + d) j) rfl, h1, h2, hproc, e1]
    · intro r2 hr2
      exfalso
      have hr2' : Phase.waiting r2 ∈ l1 ++ Phase.backoff (s.now + d) j :: l2 := hr2
      rcases List.mem_append.mp hr2' with h | h
      · exact no_waiting_of_zero h1 r2 h
      · rcases List.mem_cons.mp h with h | h
        · exact Phase.noConfusion h
        · exact no_waiting_of_zero h2 r2 h
  | backoffCrash l1 l2 r j ht hr =>
    obtain ⟨hproc, h1, h2⟩ := holder_facts hcount ht rfl
    refine ⟨?_, hle, hhead, ?_, hchain⟩
    · show (l1 ++ Phase.start :: l2).countP isActive = 0
      rw [countP_start_mid, h1, h2]
    · intro r2 hr2
      exfalso
      have hr2' : Phase.waiting r2 ∈ l1 ++ Phase.start :: l2 := hr2
      rcases List.mem_append.mp hr2' with h | h
      · exact no_waiting_of_zero h1 r2 h
      · rcases List.mem_cons.mp h with h | h
        · exact Phase.noConfusion h
        · exact no_waiting_of_zero h2 r2 h

lemma inv_reachable {s : SState} (h : Reachable s) : Inv s := by
  induction h with
  | refl => exact inv_init
  | tail hab hbc ih => exact inv_step hbc ih

lemma countP_inCall_le (l : List Phase) :
    l.countP isInCall ≤ l.countP isActive := by
  induction l with
  | nil => simp
  | cons a l ih =>
    rw [List.countP_cons, List.countP_cons]
    have : (if isInCall a then 1 else 0) ≤ (if isActive a then 1 else 0) := by
      cases a <;> simp [isInCall, isActive]
    omega

/-! ## Definitions written from the specification's words

These are deliberately composed following the spec sentences (not the
source's control flow), to be compared with the embeddings above. -/

/-- The ordered category table of spec §4.3: keyword substrings paired
with that category's fixed list, in the fixed order nurse/nursing,
developer/engineer, designer, manager. -/
def specCategories : List (List String × List String) :=
  [ (["nurse", "nursing"],
     ["Patient Care",
      "Medical Record Documentation",
      "Vital Signs Monitoring",
      "Medication Administration",
      "Wound Care",
      "Patient Advocacy",
      "CPR/BLS Certified",
      "Care Planning",
      "Clinical Assessment",
      "EMR/EHR Systems",
      "Communication",
      "Problem Solving"]),
    (["developer", "engineer"],
     ["Communication", "Problem Solving", "Teamwork", "Time Management",
      "JavaScript", "React", "Git", "CSS", "HTML"]),
    (["designer"],
     ["Communication", "Problem Solving", "Teamwork", "Time Management",
      "UI/UX", "Figma", "Adobe Creative Suite", "Prototyping"]),
    (["manager"],
     ["Communication", "Problem Solving", "Teamwork", "Time Management",
      "Leadership", "Project Management", "Agile", "Budgeting"]) ]

/-- Modelled from the spec (§4.3): lower-case the title, take the first
category one of whose keywords occurs in it (first-match-wins over the
fixed order), and return that category's list, else the generic list. -/
def fallbackSkillsSpec (title : String) : List String :=
  match specCategories.find? (fun cat => cat.1.any (fun kw => jsIncludes (jsToLower title) kw)) with
  | some cat => cat.2
  | none => ["Communication", "Problem Solving", "Teamwork", "Time Management",
             "Research", "Microsoft Office", "Organization", "Analysis"]

/-- Modelled from the amended reading of spec §4.1: match the span from
the first `[` through the last `]` and parse that whole span as JSON; with
no such span, comma-split; on parse failure or an empty result, the
fallback list. -/
def parseContentSpec (jobTitle content : String) : List String :=
  let parsed : Option (List String) :=
    match jsMatchArray content with
    | some span => jsonParseStringArray span
    | none => some (jsSplitTrim content)
  match parsed with
  | some l => if l.isEmpty then getDefaultSkills jobTitle else l
  | none => getDefaultSkills jobTitle

/-! ## Claims -/

/-- An upstream that rate-limits every attempt (used for concrete runs). -/
def rlOracle : Nat → ClientResult :=
  fun _ => ClientResult.err "Requests rate limit exceeded"

/-- C1: evaluation of the code at the failing input.  Two jobs are
submitted and every completion attempt is rate-limited.  Contrary to the
claim, no job is ever re-queued with its responder: the attempt log shows
exactly one attempt per job, both at `retryCount = 0`, because the
re-queue statement (line 121) raises a `ReferenceError` (`res` is not in
scope in `fetchSkillsFromMistral`); each responder is instead invoked
once by `processQueue`'s catch with a 500 failure. -/
theorem c1_rate_limited_job_crashes_single_delivery :
    drainAll rlOracle 10 ⟨[⟨"Nurse", 1, 0⟩, ⟨"Software Engineer", 2, 0⟩], [], []⟩ =
      ⟨[], [("Nurse", 0), ("Software Engineer", 0)],
        [(1, ⟨500, some "Failed to get suggestions", getDefaultSkills "Nurse"⟩),
         (2, ⟨500, some "Failed to get suggestions", getDefaultSkills "Software Engineer"⟩)]⟩ := by
  decide

/-- C2 counterexample: a job whose completion attempt fails with a
non-rate-limit error is delivered the fallback list with status 200 (the
success status), not a failure status: `fetchSkillsFromMistral` swallows
the error (line 127) and `processQueue` sends the normal 200 response
(line 48). -/
theorem c2_counterexample :
    processOne ⟨"Chef", 4, 0⟩ (ClientResult.err "upstream unavailable") =
      ⟨200, none, getDefaultSkills "Chef"⟩ ∧
    (processOne ⟨"Chef", 4, 0⟩ (ClientResult.err "upstream unavailable")).status ≠ 500 := by
  decide

/-- C2 (amended): for every Job whose completion attempt fails with a
rate-limit error while `retryCount ≥ 3`, or with any non-rate-limit
error, the fallback skill list for the Job's title is delivered to the
responder with the success status 200 (and no error field). -/
theorem c2_fallback_delivered_as_success (j : Job) (msg : String)
    (h : jsIncludes msg "rate limit" = false ∨ 3 ≤ j.retryCount) :
    processOne j (ClientResult.err msg) = ⟨200, none, getDefaultSkills j.title⟩ := by
  have hcond : ¬(jsIncludes msg "rate limit" = true ∧ j.retryCount < 3) := by
    rcases h with h | h
    · intro hc
      rw [h] at hc
      exact Bool.false_ne_true hc.1
    · intro hc
      omega
  have hfetch : fetchSkillsFromMistral j.title j.retryCount (ClientResult.err msg) =
      FetchResult.ret (getDefaultSkills j.title) := by
    show (if jsIncludes msg "rate limit" = true ∧ j.retryCount < 3 then
        FetchResult.refErrorThrown (backoffDelay j.retryCount)
      else FetchResult.ret (getDefaultSkills j.title)) =
      FetchResult.ret (getDefaultSkills j.title)
    rw [if_neg hcond]
  unfold processOne
  rw [hfetch]

/-- Witness for `c2_fallback_delivered_as_success`: a rate-limited error
at the retry ceiling (`retryCount = 3`). -/
theorem c2_witness :
    processOne ⟨"Chef", 9, 3⟩ (ClientResult.err "rate limit exceeded") =
      ⟨200, none, getDefaultSkills "Chef"⟩ :=
  c2_fallback_delivered_as_success ⟨"Chef", 9, 3⟩ "rate limit exceeded" (Or.inr (by decide))

/-- C3: evaluation of the code at the failing input.  A single job whose
every attempt is rate-limited makes exactly one completion attempt — not
`RETRY_CEILING + 1 = 4` — because the first re-queue raises the
`ReferenceError` of line 121 and the job is delivered a 500 failure. -/
theorem c3_all_rate_limited_job_makes_one_attempt :
    (drainAll rlOracle 10 ⟨[⟨"Registered Nurse", 7, 0⟩], [], []⟩).attemptLog =
      [("Registered Nurse", 0)] ∧
    (drainAll rlOracle 10 ⟨[⟨"Registered Nurse", 7, 0⟩], [], []⟩).attemptLog.length ≠ 4 ∧
    (drainAll rlOracle 10 ⟨[⟨"Registered Nurse", 7, 0⟩], [], []⟩).responses =
      [(7, ⟨500, some "Failed to get suggestions", getDefaultSkills "Registered Nurse"⟩)] := by
  decide

/-- C4: the backoff delay computed and awaited on the rate-limit path for
a job on its k-th consecutive rate-limited attempt (`retryCount = k - 1`,
below the ceiling) is `2^(k-1) * 1000` ms, i.e. `2^r * BASE_DELAY` for
`retryCount = r` (line 115). -/
theorem c4_backoff_delay_formula (k : Nat) (hk : 1 ≤ k) (hk3 : k - 1 < 3)
    (title msg : String) (hmsg : jsIncludes msg "rate limit" = true) :
    fetchSkillsFromMistral title (k - 1) (ClientResult.err msg) =
      .refErrorThrown (2 ^ (k - 1) * 1000) ∧
    backoffDelay (k - 1) = 2 ^ (k - 1) * 1000 := by
  constructor
  · show (if jsIncludes msg "rate limit" = true ∧ k - 1 < 3 then
        FetchResult.refErrorThrown (backoffDelay (k - 1))
      else FetchResult.ret (getDefaultSkills title)) =
      FetchResult.refErrorThrown (2 ^ (k - 1) * 1000)
    rw [if_pos ⟨hmsg, hk3⟩]
    rfl
  · rfl

/-- Witness for `c4_backoff_delay_formula` at `k = 2`. -/
theorem c4_witness :
    fetchSkillsFromMistral "Nurse" (2 - 1) (ClientResult.err "Requests rate limit exceeded") =
      .refErrorThrown (2 ^ (2 - 1) * 1000) ∧
    backoffDelay (2 - 1) = 2 ^ (2 - 1) * 1000 :=
  c4_backoff_delay_formula 2 (by decide) (by decide) "Nurse" "Requests rate limit exceeded"
    (by decide)

/-- C5: in every reachable scheduler state at most one completion call is
in flight — indeed at most one activation is past the line-32 guard at
all (spacing wait, remote call, or backoff wait), because a drain is a
no-op while `isProcessing` is set and the flag stays set across all three
suspensions. -/
theorem c5_mutual_exclusion (s : SState) (h : Reachable s) :
    s.tasks.countP isInCall ≤ 1 ∧ s.tasks.countP isActive ≤ 1 := by
  obtain ⟨hcount, -, -, -, -⟩ := inv_reachable h
  have h2 : s.tasks.countP isActive ≤ 1 := by
    rw [hcount]
    cases hp : s.processing <;> simp
  exact ⟨le_trans (countP_inCall_le s.tasks) h2, h2⟩

/-- Intermediate state for the C5 witness: one job submitted. -/
def c5mid : SState :=
  ⟨0, [⟨"Nurse", 1, 0⟩], false, 0, [], [], [Phase.start]⟩

/-- Witness for `c5_mutual_exclusion`: a state reached by one submission
followed by a drain entering the critical section. -/
theorem c5_witness :
    (SState.mk 0 [⟨"Nurse", 1, 0⟩] true 0 [] []
        [Phase.waiting (0 + timeToWait 0 0)]).tasks.countP isInCall ≤ 1 ∧
    (SState.mk 0 [⟨"Nurse", 1, 0⟩] true 0 [] []
        [Phase.waiting (0 + timeToWait 0 0)]).tasks.countP isActive ≤ 1 := by
  have t1 : Step initState c5mid := Step.submit initState ⟨"Nurse", 1, 0⟩
  have t2 : Step c5mid
      (SState.mk 0 [⟨"Nurse", 1, 0⟩] true 0 [] [] [Phase.waiting (0 + timeToWait 0 0)]) :=
    Step.drainEnter c5mid [] [] rfl rfl (by decide)
  exact c5_mutual_exclusion _ ((Relation.ReflTransGen.single t1).tail t2)

/-- C6: in every reachable scheduler state, consecutive completion
attempts start at least `MIN_REQUEST_INTERVAL` apart (the attempt-time
log is ordered most recent first). -/
theorem c6_spacing (s : SState) (h : Reachable s) :
    List.Chain' (fun a b => b + MIN_REQUEST_INTERVAL ≤ a) s.attemptTimes :=
  (inv_reachable h).2.2.2.2

/-- Trace states for the C6 witness: two submissions, then a full
drain-wait-attempt cycle for the first job, its 200 delivery, and a
second drain-wait-attempt cycle for the second job. -/
def c6s1 : SState := ⟨0, [⟨"A", 1, 0⟩], false, 0, [], [], [Phase.start]⟩

def c6s2 : SState := ⟨0, [⟨"A", 1, 0⟩, ⟨"B", 2, 0⟩], false, 0, [], [], [Phase.start, Phase.start]⟩

def c6s3 : SState :=
  ⟨0, [⟨"A", 1, 0⟩, ⟨"B", 2, 0⟩], true, 0, [], [], [Phase.waiting 1000, Phase.start]⟩

def c6s4 : SState :=
  ⟨1000, [⟨"A", 1, 0⟩, ⟨"B", 2, 0⟩], true, 0, [], [], [Phase.waiting 1000, Phase.start]⟩

def c6s5 : SState :=
  ⟨1000, [⟨"B", 2, 0⟩], true, 1000, [1000], [], [Phase.inCall ⟨"A", 1, 0⟩, Phase.start]⟩

def c6s6 : SState :=
  ⟨1000, [⟨"B", 2, 0⟩], false, 1000, [1000], [(1, 200)], [Phase.start, Phase.start]⟩

def c6s7 : SState :=
  ⟨1000, [⟨"B", 2, 0⟩], true, 1000, [1000], [(1, 200)], [Phase.waiting 2000, Phase.start]⟩

def c6s8 : SState :=
  ⟨2000, [⟨"B", 2, 0⟩], true, 1000, [1000], [(1, 200)], [Phase.waiting 2000, Phase.start]⟩

def c6s9 : SState :=
  ⟨2000, [], true, 2000, [2000, 1000], [(1, 200)], [Phase.inCall ⟨"B", 2, 0⟩, Phase.start]⟩

/-- Witness for `c6_spacing`: a reachable state with two logged attempts,
started at times 1000 and 2000 — exactly `MIN_REQUEST_INTERVAL` apart. -/
theorem c6_witness :
    List.Chain' (fun a b => b + MIN_REQUEST_INTERVAL ≤ a) c6s9.attemptTimes := by
  have t1 : Step initState c6s1 := Step.submit initState ⟨"A", 1, 0⟩
  have t2 : Step c6s1 c6s2 := Step.submit c6s1 ⟨"B", 2, 0⟩
  have t3 : Step c6s2 c6s3 := Step.drainEnter c6s2 [] [Phase.start] rfl rfl (by decide)
  have t4 : Step c6s3 c6s4 := Step.tick c6s3 1000
  have t5 : Step c6s4 c6s5 :=
    Step.attempt c6s4 [] [Phase.start] 1000 ⟨"A", 1, 0⟩ [⟨"B", 2, 0⟩] rfl (by decide) rfl
  have t6 : Step c6s5 c6s6 :=
    Step.callReturn c6s5 [] [Phase.start] ⟨"A", 1, 0⟩ (ClientResult.ok "[\"x\"]")
      (parseContent "A" "[\"x\"]") rfl rfl
  have t7 : Step c6s6 c6s7 := Step.drainEnter c6s6 [] [Phase.start] rfl rfl (by decide)
  have t8 : Step c6s7 c6s8 := Step.tick c6s7 1000
  have t9 : Step c6s8 c6s9 :=
    Step.attempt c6s8 [] [Phase.start] 2000 ⟨"B", 2, 0⟩ [] rfl (by decide) rfl
  exact c6_spacing c6s9
    ((((((((Relation.ReflTransGen.single t1).tail t2).tail t3).tail t4).tail
      t5).tail t6).tail t7).tail t8 |>.tail t9)

/-- C7 counterexample: on the text `["A"] ["B"]` the first JSON array
substring `["A"]` parses (to the non-empty list `["A"]`), so the claim
predicts the skill list `["A"]`; but the code's greedy regex matches the
whole span `["A"] ["B"]`, whose `JSON.parse` throws, and the fallback
list is returned instead. -/
theorem c7_counterexample :
    jsonParseStringArray "[\"A\"]" = some ["A"] ∧
    parseContent "Chef" "[\"A\"] [\"B\"]" = getDefaultSkills "Chef" ∧
    parseContent "Chef" "[\"A\"] [\"B\"]" ≠ ["A"] := by
  decide

/-- C7 (amended): the client matches the span from the first `[` through
the last `]` (the greedy `/\[.*\]/s`) and parses that whole span as JSON;
with no such span it splits on commas, trims and drops empties; on parse
failure or an empty result it returns the fallback list as a success.
Stated as equality with `parseContentSpec`, composed from the amended
words. -/
theorem c7_parse_refines_greedy_spec (t c : String) :
    parseContent t c = parseContentSpec t c := by
  unfold parseContent parseContentSpec
  cases hm : jsMatchArray c with
  | none => simp [hm]
  | some m =>
    cases hp : jsonParseStringArray m with
    | none => simp [hm, hp]
    | some l => simp [hm, hp]

/-- C8: the fallback resolver is a pure function of the title, equal to
the spec's first-match-wins ordered category lookup
(`fallbackSkillsSpec`); in particular `"Registered Nurse"` always yields
the fixed nurse-category list and `""` the generic list. -/
theorem c8_fallback_resolver_first_match :
    (∀ t : String, getDefaultSkills t = fallbackSkillsSpec t)
    ∧ getDefaultSkills "Registered Nurse" =
      ["Patient Care",
       "Medical Record Documentation",
       "Vital Signs Monitoring",
       "Medication Administration",
       "Wound Care",
       "Patient Advocacy",
       "CPR/BLS Certified",
       "Care Planning",
       "Clinical Assessment",
       "EMR/EHR Systems",
       "Communication",
       "Problem Solving"]
    ∧ getDefaultSkills "" =
      ["Communication", "Problem Solving", "Teamwork", "Time Management",
       "Research", "Microsoft Office", "Organization", "Analysis"] := by
  refine ⟨?_, by decide, by decide⟩
  intro t
  unfold getDefaultSkills fallbackSkillsSpec specCategories
  cases h1 : jsIncludes (jsToLower t) "nurse" <;>
    cases h2 : jsIncludes (jsToLower t) "nursing" <;>
      cases h3 : jsIncludes (jsToLower t) "developer" <;>
        cases h4 : jsIncludes (jsToLower t) "engineer" <;>
          cases h5 : jsIncludes (jsToLower t) "designer" <;>
            cases h6 : jsIncludes (jsToLower t) "manager" <;>
              simp [h1, h2, h3, h4, h5, h6, List.find?, commonSkills]

/-- C9: a request whose `jobTitle` is missing or blank after trimming is
answered 400 with error `"Job title is required"` and the fixed 4-item
generic list; the queue is returned untouched and no drain is triggered,
so no completion attempt is made for it. -/
theorem c9_blank_title_rejected (jt : Option String) (q : List Job) (rid : Nat)
    (h : jt = none ∨ ∃ s, jt = some s ∧ jsTrim s = "") :
    handlePost jt q rid =
      ⟨some ⟨400, some "Job title is required",
        ["Communication", "Problem Solving", "Teamwork", "Time Management"]⟩, q, false⟩ := by
  rcases h with h | ⟨s, hs, hts⟩
  · rw [h]
    rfl
  · rw [hs]
    unfold handlePost
    simp [hts]

/-- Witness for `c9_blank_title_rejected`: a whitespace-only title. -/
theorem c9_witness :
    handlePost (some "   ") [] 0 =
      ⟨some ⟨400, some "Job title is required",
        ["Communication", "Problem Solving", "Teamwork", "Time Management"]⟩, [], false⟩ :=
  c9_blank_title_rejected (some "   ") [] 0 (Or.inr ⟨"   ", rfl, by decide⟩)

/-- C10: for every title (including the omitted-argument case, which
defaults to the empty string) `getDefaultSkills` returns a list of at
least 8 skills containing both "Communication" and "Problem Solving". -/
theorem c10_default_skills_properties :
    (∀ t : String, 8 ≤ (getDefaultSkills t).length ∧
      "Communication" ∈ getDefaultSkills t ∧ "Problem Solving" ∈ getDefaultSkills t)
    ∧ 8 ≤ getDefaultSkillsNoArg.length
    ∧ "Communication" ∈ getDefaultSkillsNoArg
    ∧ "Problem Solving" ∈ getDefaultSkillsNoArg := by
  refine ⟨?_, by decide, by decide, by decide⟩
  intro t
  unfold getDefaultSkills
  split
  · decide
  · split
    · decide
    · split
      · decide
      · split
        · decide
        · decide

end AIRB
